import Mathlib

/-!
Shallow embedding of `src/blackjack.py` (a text-based single-player
blackjack game) and verification of its specification claims.

Modelling conventions:
* Python `int` is embedded as `ℤ` where subtraction occurs (chip balances,
  hand values) and as `ℕ` for pure counters (`card_counter`, `total_cards`,
  which are only ever incremented or reset to zero).
* Python float division in `shuffle_required` (`self.total_cards / 2`) is
  embedded as exact division in `ℚ`; for the integer operands the program
  produces (far below 2^53) binary floating point halving and comparison
  are exact, so `ℚ` matches the Python semantics.
* `random.shuffle` is embedded as an explicit reordering parameter
  `σ : List Card → List Card`; theorems that depend on the shuffle only
  assume `σ` permutes (or preserves the length of) its input.
* Reading a line with `input()` is embedded by consuming the head of an
  explicit stream of input lines; a line is a `List Char` (Lean's `String`
  functions do not reduce in the kernel, so Python's `str.strip`,
  `str.lower`, `str.isdigit` and `int(...)` are given as character-list
  functions `py_strip`, `py_lower`, `py_is_digit`, `py_to_nat`).
  `input()` raising `EOFError` on an exhausted stream is the `[]` case.
* Exceptions are embedded with `Except`: the two `GameError` payloads the
  source raises and the `AttributeError` crash that occurs when
  `Hand.add_card` receives `None` are the constructors of `GameError`
  below.  `print` calls are pure output and are omitted.
-/

namespace Blackjack

/-- Suit of a card (`class Suit`). -/
inductive Suit
  | clubs
  | diamonds
  | hearts
  | spades
deriving DecidableEq

/-- Rank of a card (`class Rank`). -/
inductive Rank
  | ace
  | two
  | three
  | four
  | five
  | six
  | seven
  | eight
  | nine
  | ten
  | jack
  | queen
  | king
deriving DecidableEq

/-- Numeric value `int(card.rank.value)` yields for the numeral ranks
`two`..`ten`.  In the source this conversion is only reached in the final
branch of `update_hand_value`, which is guarded by `is_ace` and `is_face`,
so the value returned here for ace and face cards is irrelevant (0). -/
def Rank.numeral_value : Rank → ℕ
  | .two => 2
  | .three => 3
  | .four => 4
  | .five => 5
  | .six => 6
  | .seven => 7
  | .eight => 8
  | .nine => 9
  | .ten => 10
  | _ => 0

/-- A playing card (`class Card`): a rank and a suit. -/
structure Card where
  rank : Rank
  suit : Suit
deriving DecidableEq

/-- `Card.is_ace`: true if the card is an ace. -/
def Card.is_ace (c : Card) : Bool := c.rank = Rank.ace

/-- `Card.is_face`: true if the card is a jack, queen or king. -/
def Card.is_face (c : Card) : Bool :=
  c.rank = Rank.jack ∨ c.rank = Rank.queen ∨ c.rank = Rank.king

/-- The ranks in declaration order (Python iterates `for rank in Rank`). -/
def Rank.all : List Rank :=
  [.ace, .two, .three, .four, .five, .six, .seven, .eight, .nine, .ten,
   .jack, .queen, .king]

/-- The suits in declaration order (Python iterates `for suit in Suit`). -/
def Suit.all : List Suit := [.clubs, .diamonds, .hearts, .spades]

/-- `Deck.cards`: the 52 cards `[Card(rank, suit) for rank in Rank for suit in Suit]`. -/
def Deck.cards : List Card :=
  Rank.all.flatMap fun r => Suit.all.map fun s => ⟨r, s⟩

/-- A `Shoe` (`class Shoe`): the live pool of undealt cards, the garbage
pile, the number of cards dealt so far, and the fixed full size. -/
structure Shoe where
  cards : List Card
  garbage_pile : List Card
  card_counter : ℕ
  total_cards : ℕ

/-- `Shoe.__init__`: clamp the number of decks to at least 1, concatenate
that many decks, shuffle (the reordering `σ` stands for `random.shuffle`),
and record the full size. -/
def Shoe.init (number_of_decks : ℤ) (σ : List Card → List Card) : Shoe :=
  let n := if number_of_decks < 1 then 1 else number_of_decks
  let cs := σ (List.flatten (List.replicate n.toNat Deck.cards))
  { cards := cs, garbage_pile := [], card_counter := 0, total_cards := cs.length }

/-- `Shoe.deal_card`: `None` if the live pool is empty, otherwise remove
and return the last card (`self.cards.pop()`) and bump `card_counter`. -/
def Shoe.deal_card (s : Shoe) : Option Card × Shoe :=
  match s.cards.getLast? with
  | none => (none, s)
  | some c =>
    (some c, { s with cards := s.cards.dropLast, card_counter := s.card_counter + 1 })

/-- `n` successive `deal_card` calls, keeping only the shoe state. -/
def Shoe.dealN : ℕ → Shoe → Shoe
  | 0, s => s
  | n + 1, s => Shoe.dealN n (s.deal_card).2

/-- `Shoe.get_cards_to_garbage_pile`: `self.garbage_pile += discarded_cards`.
(The mutable default argument `discarded_cards=[]` is studied separately in
the reference-store model below.) -/
def Shoe.get_cards_to_garbage_pile (s : Shoe) (discarded_cards : List Card) : Shoe :=
  { s with garbage_pile := s.garbage_pile ++ discarded_cards }

/-- `Shoe.shuffle_required`: `self.total_cards / 2 < self.card_counter`,
with Python's exact (float) halving embedded in `ℚ`. -/
def Shoe.shuffle_required (s : Shoe) : Bool :=
  decide ((s.total_cards : ℚ) / 2 < (s.card_counter : ℚ))

/-- `Shoe.shuffle_cards`: move the garbage pile back into the live pool,
shuffle the combined pool (`σ`), and reset the dealt counter. -/
def Shoe.shuffle_cards (σ : List Card → List Card) (s : Shoe) : Shoe :=
  { s with cards := σ (s.cards ++ s.garbage_pile), garbage_pile := [],
           card_counter := 0 }

/-- A store of Python list objects, indexed by object identity, used to
study the aliasing behaviour of `get_cards_to_garbage_pile`'s mutable
default argument. -/
def ListStore : Type := ℕ → List Card

/-- One call `shoe.get_cards_to_garbage_pile(arg)` at the store level:
`self.garbage_pile += discarded_cards` extends (in place) the list object
`pile` referenced by `self.garbage_pile` with the contents of the list
object `arg`; no other object is written. -/
def get_cards_to_garbage_pile_heap (st : ListStore) (pile arg : ℕ) : ListStore :=
  fun r => if r = pile then st pile ++ st arg else st r

/-- A sequence of `get_cards_to_garbage_pile` calls, each given by the
reference of the receiving shoe's garbage pile and of the argument list
(for a call that omits the argument, the latter is the reference of the
shared default-argument list). -/
def run_discard_calls (st : ListStore) : List (ℕ × ℕ) → ListStore
  | [] => st
  | (p, a) :: rest => run_discard_calls (get_cards_to_garbage_pile_heap st p a) rest

/-- A `Hand` (`class Hand`): the held cards, the running value, and the
number of aces still counted as 11. -/
structure Hand where
  hand_cards : List Card
  hand_value : ℤ
  number_of_aces : ℤ

/-- `Hand.__init__`: empty hand. -/
def Hand.init : Hand := { hand_cards := [], hand_value := 0, number_of_aces := 0 }

/-- `Hand.update_hand_value`: add the card's value (ace 11, face 10,
numeral its number), then demote one ace (−10, one fewer soft ace) if the
total went over 21 and a soft ace is held. -/
def Hand.update_hand_value (h : Hand) (card : Card) : Hand :=
  let h1 :=
    if card.is_ace then
      { h with number_of_aces := h.number_of_aces + 1, hand_value := h.hand_value + 11 }
    else if card.is_face then
      { h with hand_value := h.hand_value + 10 }
    else
      { h with hand_value := h.hand_value + (card.rank.numeral_value : ℤ) }
  if 21 < h1.hand_value ∧ 0 < h1.number_of_aces then
    { h1 with hand_value := h1.hand_value - 10, number_of_aces := h1.number_of_aces - 1 }
  else h1

/-- `Hand.add_card`: append the card and update the value. -/
def Hand.add_card (h : Hand) (card : Card) : Hand :=
  Hand.update_hand_value { h with hand_cards := h.hand_cards ++ [card] } card

/-- `Hand.reset_hand`: return the held cards and clear the hand. -/
def Hand.reset_hand (h : Hand) : List Card × Hand := (h.hand_cards, Hand.init)

/-- `Player.can_hit`: the hand value is below 21. -/
def Hand.can_hit (h : Hand) : Bool := h.hand_value < 21

/-- `Player.is_bust`: the hand value exceeds 21. -/
def Hand.is_bust (h : Hand) : Bool := 21 < h.hand_value

/-- `Dealer.advised_to_hit`: the hand value is below 17. -/
def Hand.advised_to_hit (h : Hand) : Bool := h.hand_value < 17

/-- The ways a round can abort in the source: `GameError("EOFError")`
raised on a closed input stream, `GameError("Min/Max bet error")` raised
when the minimum bet exceeds the maximum, and the uncaught Python
`AttributeError` that `Hand.update_hand_value` raises when `add_card` is
handed `None` (`card.is_ace()` on `None`). -/
inductive GameError
  | eofError
  | minMaxBetError
  | noneCardCrash
deriving DecidableEq

/-- `self.user.add_card(card)` where `card` may be the `None` returned by
an exhausted `deal_card`: Python evaluates `card.is_ace()` inside
`update_hand_value`, so a `None` card raises `AttributeError` (modelled as
`GameError.noneCardCrash`); otherwise the card is added normally. -/
def Hand.add_card_opt (h : Hand) : Option Card → Except GameError Hand
  | none => .error .noneCardCrash
  | some c => .ok (h.add_card c)

/-- The composite statement `player.add_card(self.shoe.deal_card())` that
occurs at every dealing site: deal from the shoe, then add the result
(possibly `None`) to the given hand. -/
def deal_and_add (hd : Hand) (s : Shoe) : Except GameError (Hand × Shoe) :=
  match s.deal_card with
  | (c, s') =>
    match Hand.add_card_opt hd c with
    | .error e => .error e
    | .ok h' => .ok (h', s')

/-- `class User`: a hand and a chip balance. -/
structure User where
  hand : Hand
  chips : ℤ

/-- `User.has_chips`: the balance is positive. -/
def User.has_chips (u : User) : Bool := 0 < u.chips

/-- `User.add_chips`. -/
def User.add_chips (u : User) (chips : ℤ) : User := { u with chips := u.chips + chips }

/-- `User.remove_chips`. -/
def User.remove_chips (u : User) (chips : ℤ) : User := { u with chips := u.chips - chips }

/-- `class Dealer`: just a hand. -/
structure Dealer where
  hand : Hand

/-- `class PlayerOption`: the user's move. -/
inductive PlayerOption
  | stand
  | hit
deriving DecidableEq

/-- Which announcement `Game.results` prints: `"Dealer wins."`,
`"User wins."` or `"Tie game."`. -/
inductive Outcome
  | dealerWin
  | userWin
  | tie
deriving DecidableEq

/-- `class Game`: dealer, user and shoe. -/
structure Game where
  dealer : Dealer
  user : User
  shoe : Shoe

/-- A line of text input, as a character list. -/
def PyStr : Type := List Char

/-- Python `str.lower` on the characters of a line. -/
def py_lower (s : List Char) : List Char := s.map Char.toLower

/-- Python `str.strip`: drop leading and trailing whitespace. -/
def py_strip (s : List Char) : List Char :=
  ((s.dropWhile Char.isWhitespace).reverse.dropWhile Char.isWhitespace).reverse

/-- Python `str.isdigit` (for the ASCII digits the game cares about):
nonempty and all digits. -/
def py_is_digit (s : List Char) : Bool := !s.isEmpty && s.all Char.isDigit

/-- Python `int(...)` on a digit string. -/
def py_to_nat (s : List Char) : ℕ :=
  s.foldl (fun acc c => 10 * acc + (c.toNat - '0'.toNat)) 0

/-- `Game.yes_or_no`: read lines until one parses as yes or as no; an
exhausted stream is `EOFError`, re-raised as a `GameError`.  The returned
stream is what is left after the consumed lines. -/
def yes_or_no : (s : List (List Char)) →
    Except GameError (Bool × {t : List (List Char) // t.length < s.length})
  | [] => .error .eofError
  | a :: rest =>
    let answer := py_lower (py_strip a)
    if answer = "y".data ∨ answer = "ya".data ∨ answer = "yes".data ∨
        answer = "yup".data then
      .ok (true, ⟨rest, Nat.lt_succ_of_le (Nat.le_refl _)⟩)
    else if answer = "n".data ∨ answer = "no".data ∨ answer = "nope".data then
      .ok (false, ⟨rest, Nat.lt_succ_of_le (Nat.le_refl _)⟩)
    else
      match yes_or_no rest with
      | .error e => .error e
      | .ok (b, ⟨t, ht⟩) => .ok (b, ⟨t, Nat.lt_succ_of_lt ht⟩)

/-- `Game.user_response`: read lines until one parses as hit or stand. -/
def user_response : (s : List (List Char)) →
    Except GameError (PlayerOption × {t : List (List Char) // t.length < s.length})
  | [] => .error .eofError
  | a :: rest =>
    let answer := py_lower (py_strip a)
    if answer = "h".data ∨ answer = "hit".data then
      .ok (.hit, ⟨rest, Nat.lt_succ_of_le (Nat.le_refl _)⟩)
    else if answer = "s".data ∨ answer = "stand".data then
      .ok (.stand, ⟨rest, Nat.lt_succ_of_le (Nat.le_refl _)⟩)
    else
      match user_response rest with
      | .error e => .error e
      | .ok (m, ⟨t, ht⟩) => .ok (m, ⟨t, Nat.lt_succ_of_lt ht⟩)

/-- The input loop of `Game.number_of_chips_to_bet`: read lines until one
is all digits and between `min_bet = 1` and `max_bet = chips`. -/
def bet_input_loop (chips : ℤ) : (s : List (List Char)) →
    Except GameError (ℤ × {t : List (List Char) // t.length < s.length})
  | [] => .error .eofError
  | a :: rest =>
    let number := py_strip a
    if py_is_digit number ∧ 1 ≤ (py_to_nat number : ℤ) ∧ (py_to_nat number : ℤ) ≤ chips then
      .ok ((py_to_nat number : ℤ), ⟨rest, Nat.lt_succ_of_le (Nat.le_refl _)⟩)
    else
      match bet_input_loop chips rest with
      | .error e => .error e
      | .ok (n, ⟨t, ht⟩) => .ok (n, ⟨t, Nat.lt_succ_of_lt ht⟩)

/-- `Game.number_of_chips_to_bet`: with `min_bet = 1` and
`max_bet = self.user.chips`, raise `GameError("Min/Max bet error")` before
reading any input when `min_bet > max_bet`; otherwise run the input loop. -/
def number_of_chips_to_bet (chips : ℤ) (s : List (List Char)) :
    Except GameError (ℤ × {t : List (List Char) // t.length < s.length}) :=
  if 1 > chips then .error .minMaxBetError else bet_input_loop chips s

/-- `Game.initial_deal`: two cards each, in the order dealer, user,
dealer, user. -/
def initial_deal (g : Game) : Except GameError Game :=
  match deal_and_add g.dealer.hand g.shoe with
  | .error e => .error e
  | .ok (d1, s1) =>
    match deal_and_add g.user.hand s1 with
    | .error e => .error e
    | .ok (u1, s2) =>
      match deal_and_add d1 s2 with
      | .error e => .error e
      | .ok (d2, s3) =>
        match deal_and_add u1 s3 with
        | .error e => .error e
        | .ok (u2, s4) =>
          .ok { g with dealer.hand := d2, user.hand := u2, shoe := s4 }

/-- `Game.user_move`: while the user `can_hit`, ask for hit or stand; a
hit deals a card into the user's hand (a `None` card crashes, see
`Hand.add_card_opt`) and loops; a stand exits. -/
def user_move (g : Game) (s : List (List Char)) :
    Except GameError (Game × {t : List (List Char) // t.length ≤ s.length}) :=
  if g.user.hand.can_hit then
    match user_response s with
    | .error e => .error e
    | .ok (.hit, ⟨rest, hrest⟩) =>
      match deal_and_add g.user.hand g.shoe with
      | .error e => .error e
      | .ok (h', s') =>
        match user_move { g with user.hand := h', shoe := s' } rest with
        | .error e => .error e
        | .ok (g', ⟨t, ht⟩) =>
          .ok (g', ⟨t, Nat.le_of_lt (Nat.lt_of_le_of_lt ht hrest)⟩)
    | .ok (.stand, ⟨rest, hrest⟩) => .ok (g, ⟨rest, Nat.le_of_lt hrest⟩)
  else .ok (g, ⟨s, Nat.le_refl _⟩)
termination_by s.length

/-- `Game.dealer_move`: while the dealer is `advised_to_hit` (value below
17), deal a card into the dealer's hand (a `None` card crashes). -/
def dealer_move (g : Game) : Except GameError Game :=
  if g.dealer.hand.advised_to_hit then
    match hda : deal_and_add g.dealer.hand g.shoe with
    | .error e => .error e
    | .ok (h2, s2) => dealer_move { g with dealer.hand := h2, shoe := s2 }
  else .ok g
termination_by g.shoe.cards.length
decreasing_by
  simp only [deal_and_add, Shoe.deal_card] at hda
  rcases hl : g.shoe.cards.getLast? with _ | c
  · rw [hl] at hda
    simp [Hand.add_card_opt] at hda
  · rw [hl] at hda
    simp only [Hand.add_card_opt, Except.ok.injEq, Prod.mk.injEq] at hda
    rw [← hda.2]
    have hne : g.shoe.cards ≠ [] := by
      intro h0
      rw [h0] at hl
      simp at hl
    have hpos := List.length_pos.mpr hne
    simp only [List.length_dropLast]
    omega

/-- `Game.results_dealer_win`: announcement only, no chips move. -/
def results_dealer_win (g : Game) (_bet : ℤ) : Game := g

/-- `Game.results_user_win`: the user receives `bet * 2` chips. -/
def results_user_win (g : Game) (bet : ℤ) : Game :=
  { g with user := g.user.add_chips (bet * 2) }

/-- `Game.results_tie`: the user receives the bet back. -/
def results_tie (g : Game) (bet : ℤ) : Game :=
  { g with user := g.user.add_chips bet }

/-- `Game.results`: the if/elif chain that decides the round, paired with
the announcement it prints. -/
def results (g : Game) (bet : ℤ) : Game × Outcome :=
  if g.user.hand.is_bust then (results_dealer_win g bet, .dealerWin)
  else if g.dealer.hand.is_bust then (results_user_win g bet, .userWin)
  else if g.dealer.hand.hand_value > g.user.hand.hand_value then
    (results_dealer_win g bet, .dealerWin)
  else if g.user.hand.hand_value > g.dealer.hand.hand_value then
    (results_user_win g bet, .userWin)
  else (results_tie g bet, .tie)

/-- `Game.return_cards`: reset both hands and append their cards to the
shoe's garbage pile, user first. -/
def return_cards (g : Game) : Game :=
  let (user_cards, user_hand) := g.user.hand.reset_hand
  let s1 := g.shoe.get_cards_to_garbage_pile user_cards
  let (dealer_cards, dealer_hand) := g.dealer.hand.reset_hand
  let s2 := s1.get_cards_to_garbage_pile dealer_cards
  { g with user.hand := user_hand, dealer.hand := dealer_hand, shoe := s2 }

/-- `Game.play_round`: bet, deduct the bet, deal, user turn, dealer turn
unless the user busted, resolve, return the cards.  Besides the final
state it exposes the printed outcome and the unconsumed input stream. -/
def play_round (g : Game) (s : List (List Char)) :
    Except GameError (Game × Outcome × {t : List (List Char) // t.length < s.length}) :=
  match number_of_chips_to_bet g.user.chips s with
  | .error e => .error e
  | .ok (bet, ⟨s1, h1⟩) =>
    let g1 := { g with user := g.user.remove_chips bet }
    match initial_deal g1 with
    | .error e => .error e
    | .ok g2 =>
      match user_move g2 s1 with
      | .error e => .error e
      | .ok (g3, ⟨s2, h2⟩) =>
        match (if g3.user.hand.is_bust then .ok g3 else dealer_move g3 :
            Except GameError Game) with
        | .error e => .error e
        | .ok g4 =>
          match results g4 bet with
          | (g5, out) =>
            .ok (return_cards g5, out, ⟨s2, Nat.lt_of_le_of_lt h2 h1⟩)

/-- `Game.play`: the session loop.  While the user has chips and answers
yes, shuffle the shoe if required and play a round. -/
def play (σ : List Card → List Card) (g : Game) (s : List (List Char)) :
    Except GameError (Game × {t : List (List Char) // t.length ≤ s.length}) :=
  if g.user.has_chips then
    match yes_or_no s with
    | .error e => .error e
    | .ok (false, ⟨s1, h1⟩) => .ok (g, ⟨s1, Nat.le_of_lt h1⟩)
    | .ok (true, ⟨s1, h1⟩) =>
      let g1 := if g.shoe.shuffle_required then
          { g with shoe := g.shoe.shuffle_cards σ } else g
      match play_round g1 s1 with
      | .error e => .error e
      | .ok (g2, _, ⟨s2, h2⟩) =>
        match play σ g2 s2 with
        | .error e => .error e
        | .ok (g3, ⟨s3, h3⟩) =>
          .ok (g3, ⟨s3, Nat.le_of_lt (Nat.lt_of_le_of_lt h3 (Nat.lt_of_lt_of_le h2 (Nat.le_of_lt h1)))⟩)
  else .ok (g, ⟨s, Nat.le_refl _⟩)
termination_by s.length

/-- True exactly when an aborted computation failed with
`GameError("Min/Max bet error")`. -/
def raised_min_max {α : Type} : Except GameError α → Bool
  | .error .minMaxBetError => true
  | _ => false

/-- Outcome resolution as worded by the specification (claim C4): the five
cases in priority order, first match wins; each case yields the announced
outcome and the chips paid to the user (the fifth case is reached exactly
when the values are equal, the two strict comparisons having failed). -/
def results_resolution_spec (user dealer : Hand) (bet : ℤ) : Outcome × ℤ :=
  if user.is_bust then (.dealerWin, 0)
  else if dealer.is_bust && !user.is_bust then (.userWin, 2 * bet)
  else if dealer.hand_value > user.hand_value then (.dealerWin, 0)
  else if user.hand_value > dealer.hand_value then (.userWin, 2 * bet)
  else (.tie, bet)

/-- The final chip count asserted by the payout law (claim C3) for a
round that started with `chips` chips and a bet of `bet`. -/
def round_final_chips (chips bet : ℤ) : Outcome → ℤ
  | .dealerWin => chips - bet
  | .userWin => chips + bet
  | .tie => chips

/-- The hand obtained by dealing Ace, Ten, Ace to a fresh hand. -/
def hand_ace_ten_ace : Hand :=
  ((Hand.init.add_card ⟨Rank.ace, Suit.spades⟩).add_card
    ⟨Rank.ten, Suit.clubs⟩).add_card ⟨Rank.ace, Suit.hearts⟩

/-- The hand obtained by dealing Ace, Ace, 9 to a fresh hand. -/
def hand_ace_ace_nine : Hand :=
  ((Hand.init.add_card ⟨Rank.ace, Suit.spades⟩).add_card
    ⟨Rank.ace, Suit.hearts⟩).add_card ⟨Rank.nine, Suit.clubs⟩

/-- A game state whose shoe's live pool is exhausted, with both players
mid-hand (user below 21, dealer below 17). -/
def game_empty_shoe : Game :=
  { dealer := ⟨{ hand_cards := [], hand_value := 16, number_of_aces := 0 }⟩,
    user := { hand := { hand_cards := [], hand_value := 14, number_of_aces := 0 },
              chips := 100 },
    shoe := { cards := [], garbage_pile := [], card_counter := 52, total_cards := 52 } }

/-- A small shoe with three live cards. -/
def shoe_three : Shoe :=
  { cards := [⟨Rank.ten, Suit.clubs⟩, ⟨Rank.nine, Suit.diamonds⟩, ⟨Rank.five, Suit.hearts⟩],
    garbage_pile := [], card_counter := 5, total_cards := 52 }

/-- A shoe with an empty live pool. -/
def shoe_exhausted : Shoe :=
  { cards := [], garbage_pile := [⟨Rank.ace, Suit.spades⟩],
    card_counter := 52, total_cards := 52 }

/-- A two-card shoe holding one live and one discarded card. -/
def shoe_split : Shoe :=
  { cards := [⟨Rank.ace, Suit.spades⟩], garbage_pile := [⟨Rank.ten, Suit.clubs⟩],
    card_counter := 7, total_cards := 2 }

/-- A store of list objects for the default-argument analysis: reference 0
is a shoe's garbage pile, reference 2 a hand's card list, reference 3 the
shared default-argument list (empty). -/
def store_example : ListStore :=
  fun n => if n = 0 then [⟨Rank.ace, Suit.spades⟩]
           else if n = 2 then [⟨Rank.ten, Suit.clubs⟩] else []

/-- A fresh game: 10 chips and a four-card shoe arranged so that the round
scripted by `stream_bet_stand` runs to completion (cards are dealt from the
back of the list: dealer 10♠, user 9♦, dealer 10♣, user 5♥). -/
def game_four_cards : Game :=
  { dealer := ⟨Hand.init⟩,
    user := { hand := Hand.init, chips := 10 },
    shoe := { cards := [⟨Rank.five, Suit.hearts⟩, ⟨Rank.ten, Suit.clubs⟩,
                        ⟨Rank.nine, Suit.diamonds⟩, ⟨Rank.ten, Suit.spades⟩],
              garbage_pile := [], card_counter := 0, total_cards := 4 } }

/-- Input script: bet 1 chip, then stand. -/
def stream_bet_stand : List (List Char) := ["1".data, "s".data]

/-- The state of `game_four_cards` after the bet of 1 was deducted and the
initial deal performed: dealer 20, user 14, pool empty. -/
def game_four_cards_mid : Game :=
  { dealer := ⟨{ hand_cards := [⟨Rank.ten, Suit.spades⟩, ⟨Rank.ten, Suit.clubs⟩],
                 hand_value := 20, number_of_aces := 0 }⟩,
    user := { hand := { hand_cards := [⟨Rank.nine, Suit.diamonds⟩, ⟨Rank.five, Suit.hearts⟩],
                        hand_value := 14, number_of_aces := 0 },
              chips := 9 },
    shoe := { cards := [], garbage_pile := [], card_counter := 4, total_cards := 4 } }

/-- The completed-round state reached from `game_four_cards` under
`stream_bet_stand`: the dealer won, the bet of 1 is gone, all four cards
sit in the garbage pile. -/
def game_four_cards_done : Game :=
  { dealer := ⟨Hand.init⟩,
    user := { hand := Hand.init, chips := 9 },
    shoe := { cards := [],
              garbage_pile := [⟨Rank.nine, Suit.diamonds⟩, ⟨Rank.five, Suit.hearts⟩,
                               ⟨Rank.ten, Suit.spades⟩, ⟨Rank.ten, Suit.clubs⟩],
              card_counter := 4, total_cards := 4 } }

/-!  ## Theorems  -/

theorem shuffle_required_eq (s : Shoe) :
    s.shuffle_required = decide (2 * s.card_counter > s.total_cards) := by
  unfold Shoe.shuffle_required
  rw [decide_eq_decide]
  rw [div_lt_iff₀ (by norm_num : (0:ℚ) < 2), gt_iff_lt]
  rw [show (s.card_counter : ℚ) * 2 = ((2 * s.card_counter : ℕ) : ℚ) by push_cast; ring]
  exact Nat.cast_lt

/-- C1: the claimed invariant fails in the code: after dealing Ace, Ten,
Ace the hand value is 22 (a reported bust) while one soft ace is still
held, and demoting that ace (−10) would bring the hand back to 12 ≤ 21.
The claim (and the docstring of `update_hand_value`, which promises the
best hand value) is the evident intent; the single demotion per added card
is insufficient exactly when an ace lands on a soft 21. -/
theorem C1_bust_with_soft_ace_remaining :
    hand_ace_ten_ace.hand_value = 22 ∧ hand_ace_ten_ace.number_of_aces = 1 ∧
    hand_ace_ten_ace.is_bust = true ∧ hand_ace_ten_ace.hand_value - 10 ≤ 21 := by
  decide

/-- C2 counterexample: with the live pool exhausted, the initial deal does
not handle the `None` returned by `deal_card`; it passes it to `add_card`,
which fails with the unhandled `AttributeError` crash — refuting the claim
that adding the result to a hand does not produce an unhandled error. -/
theorem C2_unhandled_deal_failure_counterexample :
    initial_deal game_empty_shoe = .error GameError.noneCardCrash := rfl

/-- C2 (amended): at each dealing site of the round engine, when the live
pool is exhausted `deal_card` does return its explicit failure value
(`None`), but the caller does not handle it: the failure value flows into
`Hand.add_card`, which fails with an unhandled `AttributeError`
(`GameError.noneCardCrash`), aborting the round. -/
theorem C2_deal_failure_crashes (g : Game) (s : List (List Char))
    (hempty : g.shoe.cards = []) :
    initial_deal g = .error GameError.noneCardCrash ∧
    (g.user.hand.can_hit = true →
      user_move g ("h".data :: s) = .error GameError.noneCardCrash) ∧
    (g.dealer.hand.advised_to_hit = true →
      dealer_move g = .error GameError.noneCardCrash) := by
  have hdeal : g.shoe.deal_card = (none, g.shoe) := by
    simp [Shoe.deal_card, hempty]
  have hda : ∀ hd : Hand, deal_and_add hd g.shoe = .error GameError.noneCardCrash := by
    intro hd
    simp [deal_and_add, hdeal, Hand.add_card_opt]
  refine ⟨?_, ?_, ?_⟩
  · simp [initial_deal, hda]
  · intro hcan
    have hresp : user_response ("h".data :: s) =
        .ok (.hit, ⟨s, Nat.lt_succ_of_le (Nat.le_refl _)⟩) := rfl
    unfold user_move
    simp [hcan, hresp, hda]
  · intro hadv
    unfold dealer_move
    simp only [hadv, if_true]
    split <;> simp_all

/-- C2 witness: the concrete exhausted-shoe game, user at 14 and dealer at
16, crashes at a user hit and at the dealer's move. -/
theorem C2_deal_failure_crashes_witness :
    user_move game_empty_shoe ["h".data] = .error GameError.noneCardCrash ∧
    dealer_move game_empty_shoe = .error GameError.noneCardCrash := by
  obtain ⟨-, h2, h3⟩ := C2_deal_failure_crashes game_empty_shoe [] rfl
  exact ⟨h2 rfl, h3 rfl⟩

/-- C4: `Game.results` implements exactly the five-case priority list of
the specification: its announced outcome agrees with the spec resolution
and the user's chips change by exactly the spec payout. -/
theorem C4_results_priority (g : Game) (bet : ℤ) :
    (results g bet).2 = (results_resolution_spec g.user.hand g.dealer.hand bet).1 ∧
    (results g bet).1.user.chips =
      g.user.chips + (results_resolution_spec g.user.hand g.dealer.hand bet).2 := by
  simp only [results, results_resolution_spec, results_dealer_win, results_user_win,
    results_tie, User.add_chips]
  by_cases h1 : g.user.hand.is_bust = true <;>
    by_cases h2 : g.dealer.hand.is_bust = true <;>
    by_cases h3 : g.user.hand.hand_value < g.dealer.hand.hand_value <;>
    by_cases h4 : g.dealer.hand.hand_value < g.user.hand.hand_value <;>
    simp [h1, h2, h3, h4] <;> omega

/-- C4 witness: the priority law applied at a concrete state (user 14,
dealer 20, bet 1): the dealer wins and no chips are paid. -/
theorem C4_results_priority_witness :
    (results game_four_cards_mid 1).2 =
      (results_resolution_spec game_four_cards_mid.user.hand
        game_four_cards_mid.dealer.hand 1).1 ∧
    (results game_four_cards_mid 1).1.user.chips =
      game_four_cards_mid.user.chips +
        (results_resolution_spec game_four_cards_mid.user.hand
          game_four_cards_mid.dealer.hand 1).2 :=
  C4_results_priority game_four_cards_mid 1

/-- C5: a hand dealt Ace, Ace, 9 in that order ends at value 21 with one
ace demoted (one still soft), and is not a bust. -/
theorem C5_ace_ace_nine_is_21 :
    hand_ace_ace_nine.hand_value = 21 ∧ hand_ace_ace_nine.number_of_aces = 1 ∧
    hand_ace_ace_nine.is_bust = false := by
  decide

/-- C6: `shuffle_required` holds iff twice the dealt count exceeds the
total size (it is modelled as a pure function of the shoe, matching the
side-effect-free method body); a one-deck shoe reports `true` after 27
cards dealt and `false` after exactly 26. -/
theorem C6_shuffle_required_iff :
    (∀ s : Shoe, s.shuffle_required = decide (2 * s.card_counter > s.total_cards)) ∧
    (Shoe.dealN 27 (Shoe.init 1 id)).shuffle_required = true ∧
    (Shoe.dealN 26 (Shoe.init 1 id)).shuffle_required = false := by
  refine ⟨shuffle_required_eq, ?_, ?_⟩
  · rw [shuffle_required_eq]
    decide
  · rw [shuffle_required_eq]
    decide

/-- C7: dealing `n ≤ M` cards from a shoe with `M` live cards leaves
`M − n` live cards and adds `n` to the dealt counter; dealing from an
empty pool returns the failure marker `none` and leaves the shoe
untouched. -/
theorem C7_deal_card_counts :
    (∀ (s : Shoe) (n : ℕ), n ≤ s.cards.length →
      (Shoe.dealN n s).cards.length = s.cards.length - n ∧
      (Shoe.dealN n s).card_counter = s.card_counter + n) ∧
    (∀ s : Shoe, s.cards = [] → s.deal_card = (none, s)) := by
  constructor
  · intro s n
    induction n generalizing s with
    | zero => intro _; simp [Shoe.dealN]
    | succ n ih =>
      intro hle
      have hne : s.cards ≠ [] := by
        intro h0
        rw [h0] at hle
        simp at hle
      have hpos : 0 < s.cards.length := List.length_pos.mpr hne
      obtain ⟨c, hc⟩ : ∃ c, s.cards.getLast? = some c := by
        cases h : s.cards.getLast? with
        | none => exact absurd (List.getLast?_eq_none_iff.mp h) hne
        | some c => exact ⟨c, rfl⟩
      have hstep : (s.deal_card).2 =
          { s with cards := s.cards.dropLast, card_counter := s.card_counter + 1 } := by
        simp [Shoe.deal_card, hc]
      have hdl : s.cards.dropLast.length = s.cards.length - 1 := List.length_dropLast _
      obtain ⟨h1, h2⟩ := ih (s.deal_card).2 (by rw [hstep]; simp only [hdl]; omega)
      constructor
      · show (Shoe.dealN n (s.deal_card).2).cards.length = _
        rw [h1, hstep]
        simp only [hdl]
        omega
      · show (Shoe.dealN n (s.deal_card).2).card_counter = _
        rw [h2, hstep]
        dsimp only
        omega
  · intro s h
    simp [Shoe.deal_card, h]

/-- C7 witness: two cards dealt from a three-card shoe, and a deal from an
exhausted shoe. -/
theorem C7_deal_card_counts_witness :
    ((Shoe.dealN 2 shoe_three).cards.length = shoe_three.cards.length - 2 ∧
     (Shoe.dealN 2 shoe_three).card_counter = shoe_three.card_counter + 2) ∧
    shoe_exhausted.deal_card = (none, shoe_exhausted) :=
  ⟨C7_deal_card_counts.1 shoe_three 2 (by decide),
   C7_deal_card_counts.2 shoe_exhausted rfl⟩

/-- C8: after `shuffle_cards` (for any length-preserving reordering) the
garbage pile is empty, the dealt counter is 0, the live pool is a
permutation of the former live pool plus the former garbage pile, and —
given the conservation invariant that live + discarded + in-hand cards
equal `total_cards` — the live pool size is `total_cards` minus the cards
held in active hands. -/
theorem C8_shuffle_cards_state :
    ∀ (σ : List Card → List Card) (s : Shoe) (k : ℕ),
      (∀ l, (σ l).Perm l) →
      s.cards.length + s.garbage_pile.length + k = s.total_cards →
      (s.shuffle_cards σ).garbage_pile = [] ∧
      (s.shuffle_cards σ).card_counter = 0 ∧
      (s.shuffle_cards σ).cards.Perm (s.cards ++ s.garbage_pile) ∧
      (s.shuffle_cards σ).cards.length = s.total_cards - k := by
  intro σ s k hσ hinv
  have hlen : (σ (s.cards ++ s.garbage_pile)).length =
      s.cards.length + s.garbage_pile.length := by
    rw [(hσ _).length_eq, List.length_append]
  refine ⟨rfl, rfl, hσ _, ?_⟩
  show (σ (s.cards ++ s.garbage_pile)).length = s.total_cards - k
  omega

/-- C8 witness: a two-card shoe with one live and one discarded card and
no cards in hands, reshuffled with the identity reordering. -/
theorem C8_shuffle_cards_state_witness :
    (shoe_split.shuffle_cards id).garbage_pile = [] ∧
    (shoe_split.shuffle_cards id).card_counter = 0 ∧
    (shoe_split.shuffle_cards id).cards.Perm (shoe_split.cards ++ shoe_split.garbage_pile) ∧
    (shoe_split.shuffle_cards id).cards.length = shoe_split.total_cards - 0 :=
  C8_shuffle_cards_state id shoe_split 0 (fun l => List.Perm.refl l) (by decide)

theorem bet_input_loop_bounds (chips : ℤ) (s : List (List Char)) :
    ∀ (b : ℤ) (t : {t : List (List Char) // t.length < s.length}),
      bet_input_loop chips s = .ok (b, t) → 1 ≤ b ∧ b ≤ chips := by
  induction s with
  | nil =>
    intro b t h
    simp [bet_input_loop] at h
  | cons a rest ih =>
    intro b t h
    simp only [bet_input_loop] at h
    by_cases hc : py_is_digit (py_strip a) ∧ 1 ≤ (py_to_nat (py_strip a) : ℤ) ∧
        (py_to_nat (py_strip a) : ℤ) ≤ chips
    · rw [if_pos hc] at h
      simp only [Except.ok.injEq, Prod.mk.injEq] at h
      rw [← h.1]
      exact ⟨hc.2.1, hc.2.2⟩
    · rw [if_neg hc] at h
      cases hrec : bet_input_loop chips rest with
      | error e =>
        rw [hrec] at h
        simp at h
      | ok v =>
        obtain ⟨n, t', ht'⟩ := v
        rw [hrec] at h
        simp only [Except.ok.injEq, Prod.mk.injEq] at h
        rw [← h.1]
        exact ih n ⟨t', ht'⟩ hrec

theorem number_of_chips_to_bet_bounds (chips : ℤ) (s : List (List Char))
    (b : ℤ) (t : {t : List (List Char) // t.length < s.length})
    (h : number_of_chips_to_bet chips s = .ok (b, t)) : 1 ≤ b ∧ b ≤ chips := by
  simp only [number_of_chips_to_bet] at h
  by_cases h1 : 1 > chips
  · rw [if_pos h1] at h
    simp at h
  · rw [if_neg h1] at h
    exact bet_input_loop_bounds chips s b t h

theorem initial_deal_user_chips (g g' : Game) (h : initial_deal g = .ok g') :
    g'.user.chips = g.user.chips := by
  simp only [initial_deal] at h
  split at h
  · exact absurd h (by simp)
  · split at h
    · exact absurd h (by simp)
    · split at h
      · exact absurd h (by simp)
      · split at h
        · exact absurd h (by simp)
        · simp only [Except.ok.injEq] at h
          rw [← h]

theorem user_move_user_chips (g : Game) (s : List (List Char)) :
    ∀ r, user_move g s = .ok r → r.1.user.chips = g.user.chips := by
  induction g, s using user_move.induct with
  | case1 g s hcan e hresp =>
    intro r hr
    unfold user_move at hr
    simp [hcan, hresp] at hr
  | case2 g s hcan rest hrest hresp e hdeal =>
    intro r hr
    unfold user_move at hr
    simp [hcan, hresp, hdeal] at hr
  | case3 g s hcan rest hrest hresp u2 s4 hdeal e hrec ih =>
    intro r hr
    unfold user_move at hr
    simp [hcan, hresp, hdeal, hrec] at hr
  | case4 g s hcan rest hrest hresp u2 s4 hdeal g2 t ht hrec ih =>
    intro r hr
    unfold user_move at hr
    simp only [hcan, if_true, hresp, hdeal, hrec, Except.ok.injEq] at hr
    rw [← hr]
    exact ih (g2, ⟨t, ht⟩) hrec
  | case5 g s hcan rest hrest hresp =>
    intro r hr
    unfold user_move at hr
    simp only [hcan, if_true, hresp, Except.ok.injEq] at hr
    rw [← hr]
  | case6 g s hcan =>
    intro r hr
    unfold user_move at hr
    rw [if_neg hcan] at hr
    simp only [Except.ok.injEq] at hr
    rw [← hr]

theorem dealer_move_user (g : Game) :
    ∀ g2, dealer_move g = .ok g2 → g2.user = g.user := by
  induction g using dealer_move.induct with
  | case1 g hadv e hda =>
    intro g2 hr
    unfold dealer_move at hr
    rw [if_pos hadv] at hr
    split at hr
    · simp at hr
    · rename_i h3 s3 heq
      rw [hda] at heq
      simp at heq
  | case2 g hadv h3 s3 hda ih =>
    intro g2 hr
    unfold dealer_move at hr
    rw [if_pos hadv] at hr
    split at hr
    · rename_i e heq
      rw [hda] at heq
      simp at heq
    · rename_i h4 s4 heq
      rw [hda] at heq
      simp only [Except.ok.injEq, Prod.mk.injEq] at heq
      obtain ⟨h1, h2⟩ := heq
      subst h1
      subst h2
      exact ih g2 hr
  | case3 g hadv =>
    intro g2 hr
    unfold dealer_move at hr
    rw [if_neg hadv] at hr
    simp only [Except.ok.injEq] at hr
    rw [← hr]

theorem results_user_chips (g : Game) (bet : ℤ) :
    (results g bet).1.user.chips =
      g.user.chips +
        (match (results g bet).2 with
         | .dealerWin => 0
         | .userWin => 2 * bet
         | .tie => bet) := by
  simp only [results, results_dealer_win, results_user_win, results_tie, User.add_chips]
  split_ifs <;> simp <;> ring

/-- C3: whenever `play_round` completes, there is a bet `B` with
`1 ≤ B ≤ C` (`C` the user's chips at the start of the round) such that the
final chips are `C − B` on a dealer win, `C + B` on a user win, and `C` on
a tie. -/
theorem C3_round_payout (g g' : Game) (out : Outcome) (s : List (List Char))
    (t : {t : List (List Char) // t.length < s.length})
    (h : play_round g s = .ok (g', out, t)) :
    ∃ B : ℤ, 1 ≤ B ∧ B ≤ g.user.chips ∧
      g'.user.chips = round_final_chips g.user.chips B out := by
  simp only [play_round] at h
  split at h
  · simp at h
  · rename_i bet s1 hs1 hbet
    obtain ⟨hb1, hb2⟩ := number_of_chips_to_bet_bounds _ _ _ _ hbet
    refine ⟨bet, hb1, hb2, ?_⟩
    split at h
    · simp at h
    · rename_i g2 hid
      have hchips2 : g2.user.chips = g.user.chips - bet := by
        rw [initial_deal_user_chips _ _ hid]
        rfl
      split at h
      · simp at h
      · rename_i g3 s2 hs2 hum
        have hchips3 : g3.user.chips = g.user.chips - bet := by
          have h5 := user_move_user_chips _ _ _ hum
          exact h5.trans hchips2
        split at h
        · simp at h
        · rename_i g4 hnext
          have hchips4 : g4.user.chips = g.user.chips - bet := by
            by_cases hbust : g3.user.hand.is_bust = true
            · rw [if_pos hbust] at hnext
              simp only [Except.ok.injEq] at hnext
              rw [← hnext]
              exact hchips3
            · rw [if_neg hbust] at hnext
              rw [congrArg User.chips (dealer_move_user g3 g4 hnext)]
              exact hchips3
          simp only [Except.ok.injEq, Prod.mk.injEq] at h
          obtain ⟨hgeq, houteq, -⟩ := h
          have hret : (return_cards (results g4 bet).1).user.chips =
              (results g4 bet).1.user.chips := rfl
          have h6 := results_user_chips g4 bet
          rw [houteq] at h6
          rw [← hgeq, hret, h6, hchips4]
          cases out <;> simp [round_final_chips] <;> ring

/-- C3 witness: a complete concrete round (10 chips, bet 1, user stands
at 14, dealer stands at 20, dealer wins) obeys the payout law. -/
theorem C3_round_payout_witness :
    ∃ B : ℤ, 1 ≤ B ∧ B ≤ game_four_cards.user.chips ∧
      game_four_cards_done.user.chips =
        round_final_chips game_four_cards.user.chips B Outcome.dealerWin := by
  have hbet : number_of_chips_to_bet game_four_cards.user.chips stream_bet_stand =
      .ok (1, ⟨["s".data], by decide⟩) := rfl
  have hid : initial_deal ⟨game_four_cards.dealer,
      game_four_cards.user.remove_chips 1, game_four_cards.shoe⟩ =
      .ok game_four_cards_mid := rfl
  have hum : user_move game_four_cards_mid ["s".data] =
      .ok (game_four_cards_mid, ⟨[], by decide⟩) := by
    unfold user_move
    rfl
  have hdm : dealer_move game_four_cards_mid = .ok game_four_cards_mid := by
    unfold dealer_move
    rfl
  have hbust : game_four_cards_mid.user.hand.is_bust = false := rfl
  have hres : results game_four_cards_mid 1 = (game_four_cards_mid, Outcome.dealerWin) := rfl
  have hretc : return_cards game_four_cards_mid = game_four_cards_done := rfl
  have hrun : play_round game_four_cards stream_bet_stand =
      .ok (game_four_cards_done, .dealerWin, ⟨[], by decide⟩) := by
    simp [play_round, hbet, hid, hum, hdm, hbust, hres, hretc]
  exact C3_round_payout _ _ _ _ _ hrun

theorem yes_or_no_eof (s : List (List Char)) :
    ∀ e, yes_or_no s = .error e → e = .eofError := by
  induction s with
  | nil =>
    intro e he
    simp only [yes_or_no] at he
    injection he with h
    exact h.symm
  | cons a rest ih =>
    intro e he
    simp only [yes_or_no] at he
    split at he
    · simp at he
    · split at he
      · simp at he
      · split at he
        · rename_i e2 heq
          injection he with h
          rw [← h]
          exact ih e2 heq
        · simp at he

theorem user_response_eof (s : List (List Char)) :
    ∀ e, user_response s = .error e → e = .eofError := by
  induction s with
  | nil =>
    intro e he
    simp only [user_response] at he
    injection he with h
    exact h.symm
  | cons a rest ih =>
    intro e he
    simp only [user_response] at he
    split at he
    · simp at he
    · split at he
      · simp at he
      · split at he
        · rename_i e2 heq
          injection he with h
          rw [← h]
          exact ih e2 heq
        · simp at he

theorem bet_input_loop_eof (chips : ℤ) (s : List (List Char)) :
    ∀ e, bet_input_loop chips s = .error e → e = .eofError := by
  induction s with
  | nil =>
    intro e he
    simp only [bet_input_loop] at he
    injection he with h
    exact h.symm
  | cons a rest ih =>
    intro e he
    simp only [bet_input_loop] at he
    split at he
    · simp at he
    · split at he
      · rename_i e2 heq
        injection he with h
        rw [← h]
        exact ih e2 heq
      · simp at he

theorem add_card_opt_error (h : Hand) (c : Option Card) (e : GameError)
    (he : h.add_card_opt c = .error e) : e = .noneCardCrash := by
  cases c with
  | none =>
    injection he with h1
    exact h1.symm
  | some c =>
    simp [Hand.add_card_opt] at he

theorem deal_and_add_error (hd : Hand) (sh : Shoe) (e : GameError)
    (he : deal_and_add hd sh = .error e) : e = .noneCardCrash := by
  simp only [deal_and_add] at he
  split at he
  · rename_i e1 heq
    injection he with h
    rw [← h]
    exact add_card_opt_error _ _ _ heq
  · simp at he

theorem initial_deal_error (g : Game) (e : GameError)
    (he : initial_deal g = .error e) : e = .noneCardCrash := by
  simp only [initial_deal] at he
  split at he
  · rename_i e1 heq
    injection he with h
    rw [← h]
    exact deal_and_add_error _ _ _ heq
  · split at he
    · rename_i e1 heq
      injection he with h
      rw [← h]
      exact deal_and_add_error _ _ _ heq
    · split at he
      · rename_i e1 heq
        injection he with h
        rw [← h]
        exact deal_and_add_error _ _ _ heq
      · split at he
        · rename_i e1 heq
          injection he with h
          rw [← h]
          exact deal_and_add_error _ _ _ heq
        · simp at he

theorem user_move_error (g : Game) (s : List (List Char)) :
    ∀ e, user_move g s = .error e → e = .eofError ∨ e = .noneCardCrash := by
  induction g, s using user_move.induct with
  | case1 g s hcan e2 hresp =>
    intro e he
    unfold user_move at he
    simp only [hcan, if_true, hresp] at he
    injection he with h
    rw [← h]
    exact Or.inl (user_response_eof s e2 hresp)
  | case2 g s hcan rest hrest hresp e2 hdeal =>
    intro e he
    unfold user_move at he
    simp only [hcan, if_true, hresp, hdeal] at he
    injection he with h
    rw [← h]
    exact Or.inr (deal_and_add_error _ _ _ hdeal)
  | case3 g s hcan rest hrest hresp u2 s4 hdeal e2 hrec ih =>
    intro e he
    unfold user_move at he
    simp only [hcan, if_true, hresp, hdeal, hrec] at he
    injection he with h
    rw [← h]
    exact ih e2 hrec
  | case4 g s hcan rest hrest hresp u2 s4 hdeal g2 t ht hrec ih =>
    intro e he
    unfold user_move at he
    simp [hcan, hresp, hdeal, hrec] at he
  | case5 g s hcan rest hrest hresp =>
    intro e he
    unfold user_move at he
    simp [hcan, hresp] at he
  | case6 g s hcan =>
    intro e he
    unfold user_move at he
    rw [if_neg hcan] at he
    simp at he

theorem dealer_move_error (g : Game) :
    ∀ e, dealer_move g = .error e → e = .noneCardCrash := by
  induction g using dealer_move.induct with
  | case1 g hadv e2 hda =>
    intro e he
    unfold dealer_move at he
    rw [if_pos hadv] at he
    split at he
    · rename_i e1 heq
      injection he with h
      rw [← h]
      exact deal_and_add_error _ _ _ heq
    · rename_i h3 s3 heq
      rw [hda] at heq
      simp at heq
  | case2 g hadv h3 s3 hda ih =>
    intro e he
    unfold dealer_move at he
    rw [if_pos hadv] at he
    split at he
    · rename_i e1 heq
      injection he with h
      rw [← h]
      exact deal_and_add_error _ _ _ heq
    · rename_i h4 s4 heq
      rw [hda] at heq
      simp only [Except.ok.injEq, Prod.mk.injEq] at heq
      obtain ⟨h1, h2⟩ := heq
      subst h1
      subst h2
      exact ih e he
  | case3 g hadv =>
    intro e he
    unfold dealer_move at he
    rw [if_neg hadv] at he
    simp at he

theorem play_round_min_max (g : Game) (s : List (List Char))
    (hchips : 0 < g.user.chips) :
    raised_min_max (play_round g s) = false := by
  simp only [play_round]
  split
  · rename_i e hbet
    have he : e = .eofError := by
      simp only [number_of_chips_to_bet] at hbet
      rw [if_neg (by omega : ¬ 1 > g.user.chips)] at hbet
      exact bet_input_loop_eof _ _ _ hbet
    rw [he]
    rfl
  · rename_i bet s1 hs1 hbet
    split
    · rename_i e hid
      rw [initial_deal_error _ _ hid]
      rfl
    · rename_i g2 hid
      split
      · rename_i e hum
        rcases user_move_error _ _ _ hum with h | h <;> rw [h] <;> rfl
      · rename_i g3 s2 hs2 hum
        split
        · rename_i e hnext
          have he : e = .noneCardCrash := by
            by_cases hbust : g3.user.hand.is_bust = true
            · rw [if_pos hbust] at hnext
              simp at hnext
            · rw [if_neg hbust] at hnext
              exact dealer_move_error g3 e hnext
          rw [he]
          rfl
        · rfl

/-- C9: the bet-obtaining step raises the Min/Max-bet `GameError` exactly
when the minimum bet 1 exceeds the user's chips — for every input stream,
so in particular before any input is read — and under the session loop
`play`, which checks `has_chips` before each round, that error is never
raised, whatever the shuffle, the starting state and the inputs. -/
theorem C9_min_max_bet_guard :
    (∀ (chips : ℤ) (s : List (List Char)),
      raised_min_max (number_of_chips_to_bet chips s) = decide (1 > chips)) ∧
    (∀ (σ : List Card → List Card) (g : Game) (s : List (List Char)),
      raised_min_max (play σ g s) = false) := by
  have part1 : ∀ (chips : ℤ) (s : List (List Char)),
      raised_min_max (number_of_chips_to_bet chips s) = decide (1 > chips) := by
    intro chips s
    by_cases h1 : 1 > chips
    · simp only [number_of_chips_to_bet]
      rw [if_pos h1, decide_eq_true h1]
      rfl
    · simp only [number_of_chips_to_bet]
      rw [if_neg h1, decide_eq_false h1]
      cases hb : bet_input_loop chips s with
      | error e =>
        rw [bet_input_loop_eof _ _ _ hb]
        rfl
      | ok v => rfl
  refine ⟨part1, ?_⟩
  intro σ g s
  induction g, s using play.induct σ with
  | case1 g s hchips e hyn =>
    unfold play
    simp only [hchips, if_true, hyn]
    rw [yes_or_no_eof s e hyn]
    rfl
  | case2 g s hchips s1 h1 hyn =>
    unfold play
    simp only [hchips, if_true, hyn]
    rfl
  | case3 g s hchips s1 h1 hyn g1 e hpr =>
    unfold_let g1 at hpr
    rw [dite_eq_ite] at hpr
    unfold play
    simp only [hchips, if_true, hyn, hpr]
    have h0 : 0 < g.user.chips := by
      simpa [User.has_chips] using hchips
    have hg1 : 0 < (if g.shoe.shuffle_required then
        { g with shoe := g.shoe.shuffle_cards σ } else g).user.chips := by
      split
      · exact h0
      · exact h0
    have h2 := play_round_min_max _ s1 hg1
    rw [hpr] at h2
    cases e <;> first
      | rfl
      | exact absurd h2 (by simp [raised_min_max])
  | case4 g s hchips s1 h1 hyn g1 g2 out s2 hs2 hpr e herr ih =>
    unfold_let g1 at hpr
    rw [dite_eq_ite] at hpr
    unfold play
    simp only [hchips, if_true, hyn, hpr, herr]
    rw [herr] at ih
    cases e <;> first
      | rfl
      | exact absurd ih (by simp [raised_min_max])
  | case5 g s hchips s1 h1 hyn g1 g2 out s2 hs2 hpr g3 s3 hs3 hrec ih =>
    unfold_let g1 at hpr
    rw [dite_eq_ite] at hpr
    unfold play
    simp only [hchips, if_true, hyn, hpr, hrec]
    rfl
  | case6 g s hchips =>
    unfold play
    rw [if_neg hchips]
    rfl

/-- C10: a `get_cards_to_garbage_pile` call writes only the receiving
shoe's garbage-pile object: any other list object — in particular the
argument list — is unchanged; the pile is extended by exactly the
argument's contents; a sequence of calls never touching the shared
default-argument object as a pile leaves it empty; and a call passing the
(empty) default leaves the pile exactly as it was. -/
theorem C10_default_argument_frame :
    (∀ (st : ListStore) (p a r : ℕ), r ≠ p →
      get_cards_to_garbage_pile_heap st p a r = st r) ∧
    (∀ (st : ListStore) (p a : ℕ),
      get_cards_to_garbage_pile_heap st p a p = st p ++ st a) ∧
    (∀ (st : ListStore) (calls : List (ℕ × ℕ)) (d : ℕ),
      st d = [] → (∀ c ∈ calls, c.1 ≠ d) →
      run_discard_calls st calls d = []) ∧
    (∀ (st : ListStore) (p d : ℕ), d ≠ p → st d = [] →
      get_cards_to_garbage_pile_heap st p d p = st p) := by
  refine ⟨?_, ?_, ?_, ?_⟩
  · intro st p a r hr
    simp [get_cards_to_garbage_pile_heap, hr]
  · intro st p a
    simp [get_cards_to_garbage_pile_heap]
  · intro st calls
    induction calls generalizing st with
    | nil =>
      intro d hd _
      simpa [run_discard_calls] using hd
    | cons c rest ih =>
      intro d hd hne
      obtain ⟨p, a⟩ := c
      have hpd : p ≠ d := hne (p, a) (List.mem_cons_self _ _)
      simp only [run_discard_calls]
      refine ih _ d ?_ ?_
      · simp only [get_cards_to_garbage_pile_heap]
        rw [if_neg fun h => hpd h.symm]
        exact hd
      · intro c hc
        exact hne c (List.mem_cons_of_mem _ hc)
  · intro st p d hdp hd
    simp [get_cards_to_garbage_pile_heap, hd]

/-- C10 witness: concrete store with a pile at reference 0, a hand list at
reference 2 and the default list at reference 3. -/
theorem C10_default_argument_frame_witness :
    (get_cards_to_garbage_pile_heap store_example 0 2 2 = store_example 2) ∧
    (get_cards_to_garbage_pile_heap store_example 0 2 0 =
      store_example 0 ++ store_example 2) ∧
    (run_discard_calls store_example [(0, 3), (0, 2)] 3 = []) ∧
    (get_cards_to_garbage_pile_heap store_example 0 3 0 = store_example 0) :=
  ⟨C10_default_argument_frame.1 store_example 0 2 2 (by decide),
   C10_default_argument_frame.2.1 store_example 0 2,
   C10_default_argument_frame.2.2.1 store_example [(0, 3), (0, 2)] 3 rfl (by decide),
   C10_default_argument_frame.2.2.2 store_example 0 3 (by decide) rfl⟩

end Blackjack
